import Mathlib

/-!
Verification development for the `phasutils` overlay program (`src/main.rs`).

The program is shallowly embedded: time (`std::time::Instant`) is modelled as
an absolute `Nat` timestamp (monotone wall clock, nanosecond resolution),
`std::time::Duration` as a `Nat`, and each stateful Rust method becomes a pure
Lean function that takes the current timestamp `now` as an explicit argument.
-/

namespace Phasutils

/-- Model of `struct StopWatch` (main.rs lines 37-41): an accumulated duration
`elapsed`, a running flag `start`, and a reference instant `instant`.
Field names follow the Rust source. -/
structure StopWatch where
  elapsed : Nat
  start : Bool
  instant : Nat
deriving DecidableEq

/-- Model of `Instant::elapsed` evaluated at absolute time `now`: the duration
since the stored instant (saturating at zero, as the clock is monotone). -/
def instantElapsed (instant now : Nat) : Nat := now - instant

/-- Model of `StopWatch::new` (lines 44-50), created at absolute time `now`. -/
def StopWatch.new (now : Nat) : StopWatch :=
  { elapsed := 0, start := false, instant := now }

/-- Model of `StopWatch::start` (lines 52-57), called at absolute time `now`.
Named `startAt` because the Rust method shares its name with the `start` field. -/
def StopWatch.startAt (s : StopWatch) (now : Nat) : StopWatch :=
  if !s.start then { s with start := true, instant := now } else s

/-- Model of `StopWatch::stop` (lines 59-64), called at absolute time `now`. -/
def StopWatch.stopAt (s : StopWatch) (now : Nat) : StopWatch :=
  if s.start then
    { s with start := false, elapsed := s.elapsed + instantElapsed s.instant now }
  else s

/-- Model of `StopWatch::reset` (lines 66-71), called at absolute time `now`. -/
def StopWatch.resetAt (s : StopWatch) (now : Nat) : StopWatch :=
  if !s.start then { s with elapsed := 0, instant := now } else s

/-- Model of `StopWatch::elapsed` (lines 73-80), queried at absolute time `now`.
It takes `&self`, so it is a pure function of the state. -/
def StopWatch.elapsedAt (s : StopWatch) (now : Nat) : Nat :=
  s.elapsed + (if s.start then instantElapsed s.instant now else 0)

/-- C1: the stopwatch state consists exactly of the accumulated duration, the
running flag and the reference instant (structure eta), and `elapsed()` returns
the accumulated duration plus, when running, the time since the reference
instant, and zero extra otherwise. `elapsedAt` is a pure function of the state,
so the query modifies nothing. -/
theorem stopwatch_state_and_elapsed (s : StopWatch) (now : Nat) :
    s = { elapsed := s.elapsed, start := s.start, instant := s.instant } ∧
    s.elapsedAt now = s.elapsed + (if s.start then now - s.instant else 0) := by
  refine ⟨rfl, ?_⟩
  simp [StopWatch.elapsedAt, instantElapsed]

/-- C2: for a freshly created stopwatch, starting at time `t1` and stopping at
a later time `t2` makes `elapsed()` return exactly the wall-time delta
`t2 - t1`, at any later query time. -/
theorem start_stop_elapsed_delta (t0 t1 t2 now : Nat) (h : t1 ≤ t2) :
    (((StopWatch.new t0).startAt t1).stopAt t2).elapsedAt now = t2 - t1 := by
  simp [StopWatch.new, StopWatch.startAt, StopWatch.stopAt, StopWatch.elapsedAt,
    instantElapsed]

/-- Witness for C2 at concrete times 5 and 12. -/
theorem start_stop_elapsed_delta_witness :
    (5 : Nat) ≤ 12 ∧ (((StopWatch.new 1).startAt 5).stopAt 12).elapsedAt 20 = 12 - 5 :=
  ⟨by decide, start_stop_elapsed_delta 1 5 12 20 (by decide)⟩

/-- C3: calling `reset` on a stopwatch whose running flag is set is a no-op:
the whole state is returned unchanged. -/
theorem reset_while_running_noop (s : StopWatch) (now : Nat) (h : s.start = true) :
    s.resetAt now = s := by
  simp [StopWatch.resetAt, h]

/-- Witness for C3 on a concrete running stopwatch. -/
theorem reset_while_running_noop_witness :
    ({ elapsed := 3, start := true, instant := 10 } : StopWatch).start = true ∧
    ({ elapsed := 3, start := true, instant := 10 } : StopWatch).resetAt 99 =
      { elapsed := 3, start := true, instant := 10 } :=
  ⟨rfl, reset_while_running_noop { elapsed := 3, start := true, instant := 10 } 99 rfl⟩

/-- Model of `struct GhostInformation` (main.rs lines 83-89). -/
structure GhostInformation where
  id : String
  name : String
  speed : String
  features : String
deriving DecidableEq

/-- Model of `struct Config` (main.rs lines 91-95). The Rust field `version`
has type `i32`; it is modelled as an `Int` that the config parser constrains to
the signed 32-bit range. -/
structure Config where
  version : Int
  ghosts : List GhostInformation
deriving DecidableEq

/-- Model of the `rdev::Key` values distinguished by the callback
(main.rs lines 212-231); every other key of the keyboard is represented by
`other` with an arbitrary code. -/
inductive Key where
  | num0
  | num1
  | num2
  | num3
  | keyZ
  | keyX
  | other (code : Nat)
deriving DecidableEq

/-- Model of `rdev::EventType` as far as the callback inspects it: the callback
acts only on `KeyPress` events (line 210); presses and releases carry a key. -/
inductive EventType where
  | keyPress (k : Key)
  | keyRelease (k : Key)
deriving DecidableEq

/-- Number of values of `usize` on the 64-bit target. -/
def USIZE : Nat := 2 ^ 64

/-- Wrapping `usize` addition, the semantics of `AtomicUsize::fetch_add`. -/
def usizeAdd (a b : Nat) : Nat := (a + b) % USIZE

/-- Wrapping `usize` subtraction for a subtrahend `b ≤ USIZE`, the semantics of
`AtomicUsize::fetch_sub` and of release-mode `usize` subtraction. -/
def usizeSub (a b : Nat) : Nat := (a + USIZE - b) % USIZE

/-- Whether the `usize` subtraction `a - b` underflows (the overflow that, in a
debug build, makes the plain `-` operator panic). -/
def usizeSubUnderflows (a b : Nat) : Bool := a < b

/-- The shared mutable state of the program: the stopwatch behind its
`RwLock` (line 181), the `window_should_close` flag (line 117), the ghost
`index` (line 199), the `ghost_information_should_update` flag (line 200), and
the config behind its `RwLock` (lines 101-103; it is never written after
startup, only read). -/
structure AppState where
  stopwatch : StopWatch
  shouldClose : Bool
  index : Nat
  shouldUpdate : Bool
  config : Config
deriving DecidableEq

/-- Model of the key-listener `callback` closure (main.rs lines 209-234),
invoked at absolute time `now`. Only `KeyPress` events are inspected; `Num1`
starts, `Num2` stops, `Num3` resets the stopwatch, `Num0` stores `true` into
the shutdown flag, `KeyZ` and `KeyX` move the ghost index with the guards of
lines 218 and 224-226, and every other key falls into the `_ => {}` arm. -/
def callback (ev : EventType) (now : Nat) (s : AppState) : AppState :=
  match ev with
  | .keyPress k =>
    match k with
    | .num1 => { s with stopwatch := s.stopwatch.startAt now }
    | .num2 => { s with stopwatch := s.stopwatch.stopAt now }
    | .num3 => { s with stopwatch := s.stopwatch.resetAt now }
    | .num0 => { s with shouldClose := true }
    | .keyZ =>
        if s.index ≠ 0 then
          { s with index := usizeSub s.index 1, shouldUpdate := true }
        else s
    | .keyX =>
        if s.index ≠ usizeSub s.config.ghosts.length 1 then
          { s with index := usizeAdd s.index 1, shouldUpdate := true }
        else s
    | .other _ => s
  | .keyRelease _ => s

/-- C4: the dispatch table of the global key listener. `Num1`, `Num2`, `Num3`
apply start, stop, reset to the stopwatch and touch nothing else; `Num0` sets
the shutdown flag and touches nothing else; `KeyZ` moves to the previous
catalog entry and `KeyX` to the next (with their boundary guards); a press of
any other key, and any key release, leaves all state unchanged. -/
theorem key_dispatch (now : Nat) (s : AppState) :
    callback (.keyPress .num1) now s = { s with stopwatch := s.stopwatch.startAt now } ∧
    callback (.keyPress .num2) now s = { s with stopwatch := s.stopwatch.stopAt now } ∧
    callback (.keyPress .num3) now s = { s with stopwatch := s.stopwatch.resetAt now } ∧
    callback (.keyPress .num0) now s = { s with shouldClose := true } ∧
    callback (.keyPress .keyZ) now s =
      (if s.index = 0 then s
       else { s with index := usizeSub s.index 1, shouldUpdate := true }) ∧
    callback (.keyPress .keyX) now s =
      (if s.index = usizeSub s.config.ghosts.length 1 then s
       else { s with index := usizeAdd s.index 1, shouldUpdate := true }) ∧
    (∀ code, callback (.keyPress (.other code)) now s = s) ∧
    (∀ k, callback (.keyRelease k) now s = s) := by
  refine ⟨rfl, rfl, rfl, rfl, ?_, ?_, fun _ => rfl, fun _ => rfl⟩
  · by_cases h : s.index = 0 <;> simp [callback, h]
  · by_cases h : s.index = usizeSub s.config.ghosts.length 1 <;> simp [callback, h]

/-- The state as `main` sets it up before spawning the listener thread: a fresh
stopwatch (created at time `t0`), shutdown flag `false` (line 117), ghost index
`0` (line 199), update flag `true` (line 200), and the parsed config. -/
def initialApp (c : Config) (t0 : Nat) : AppState :=
  { stopwatch := StopWatch.new t0
    shouldClose := false
    index := 0
    shouldUpdate := true
    config := c }

/-- Run the callback over a sequence of key presses, each paired with the
absolute time at which it arrives. -/
def runPresses (keys : List (Key × Nat)) (s : AppState) : AppState :=
  keys.foldl (fun s p => callback (.keyPress p.1) p.2 s) s

theorem callback_config (ev : EventType) (now : Nat) (s : AppState) :
    (callback ev now s).config = s.config := by
  cases ev with
  | keyPress k =>
      cases k <;> simp only [callback] <;> split <;> rfl
  | keyRelease k => rfl

theorem usizeSub_one (i : Nat) (h1 : 1 ≤ i) (h2 : i ≤ USIZE) :
    usizeSub i 1 = i - 1 := by
  unfold usizeSub USIZE at *
  omega

theorem usizeAdd_one (i : Nat) (h : i + 1 < USIZE) :
    usizeAdd i 1 = i + 1 := by
  unfold usizeAdd USIZE at *
  omega

theorem callback_index_lt (ev : EventType) (now : Nat) (s : AppState)
    (h : s.index < s.config.ghosts.length)
    (hU : s.config.ghosts.length < USIZE) :
    (callback ev now s).index < s.config.ghosts.length := by
  cases ev with
  | keyPress k =>
      cases k with
      | keyZ =>
          simp only [callback]
          split
          · next hz =>
              simp only
              rw [usizeSub_one s.index (by omega) (by omega)]
              omega
          · exact h
      | keyX =>
          simp only [callback]
          split
          · next hx =>
              rw [usizeSub_one s.config.ghosts.length (by omega) (by omega)] at hx
              simp only
              rw [usizeAdd_one s.index (by omega)]
              omega
          · exact h
      | num0 => exact h
      | num1 => exact h
      | num2 => exact h
      | num3 => exact h
      | other code => exact h
  | keyRelease k => exact h

theorem runPresses_config (keys : List (Key × Nat)) (s : AppState) :
    (runPresses keys s).config = s.config := by
  induction keys generalizing s with
  | nil => rfl
  | cons p rest ih =>
      unfold runPresses at *
      rw [List.foldl_cons, ih, callback_config]

theorem runPresses_index_lt (keys : List (Key × Nat)) (s : AppState)
    (h : s.index < s.config.ghosts.length)
    (hU : s.config.ghosts.length < USIZE) :
    (runPresses keys s).index < (runPresses keys s).config.ghosts.length := by
  induction keys generalizing s with
  | nil => exact h
  | cons p rest ih =>
      have hc := callback_config (.keyPress p.1) p.2 s
      exact ih (callback (.keyPress p.1) p.2 s)
        (by rw [hc]; exact callback_index_lt _ _ _ h hU)
        (by rw [hc]; exact hU)

/-- C5: for a non-empty ghost list of length `n` (bounded by the `usize`
range, as every Rust `Vec` length is), the ghost index starts at `0`; after
any sequence of Z and X key presses it remains in the range `0..n-1`; and each
single press behaves as claimed: Z decrements the index by one unless it is
`0`, X increments it by one unless it is `n-1`, and at those boundaries the
index is unchanged. -/
theorem ghost_index_invariant (c : Config) (t0 : Nat)
    (h1 : 1 ≤ c.ghosts.length) (h2 : c.ghosts.length < USIZE) :
    (initialApp c t0).index = 0 ∧
    (∀ keys : List (Key × Nat),
      (∀ p ∈ keys, p.1 = Key.keyZ ∨ p.1 = Key.keyX) →
      (runPresses keys (initialApp c t0)).index ≤ c.ghosts.length - 1) ∧
    (∀ (s : AppState) (now : Nat), s.config = c → s.index ≤ c.ghosts.length - 1 →
      (callback (.keyPress .keyZ) now s).index =
        (if s.index = 0 then s.index else s.index - 1) ∧
      (callback (.keyPress .keyX) now s).index =
        (if s.index = c.ghosts.length - 1 then s.index else s.index + 1)) := by
  refine ⟨rfl, ?_, ?_⟩
  · intro keys _
    have h := runPresses_index_lt keys (initialApp c t0) (by simpa [initialApp] using h1)
      (by simpa [initialApp] using h2)
    have hc : (runPresses keys (initialApp c t0)).config = c :=
      runPresses_config keys (initialApp c t0)
    rw [hc] at h
    omega
  · intro s now hcfg hidx
    constructor
    · simp only [callback]
      split
      · next hz => exact usizeSub_one s.index (by omega) (by unfold USIZE at *; omega)
      · next hz => simp at hz; simp [hz]
    · simp only [callback, hcfg]
      have hn : usizeSub c.ghosts.length 1 = c.ghosts.length - 1 :=
        usizeSub_one c.ghosts.length (by omega) (by omega)
      rw [hn]
      by_cases hx : s.index = c.ghosts.length - 1
      · simp [hx]
      · simp only [ne_eq, hx, not_false_iff, if_true, if_neg hx]
        exact usizeAdd_one s.index (by omega)

/-- Model of `const SCALE` (main.rs line 33). -/
def SCALE : Nat := 3

/-- The left margin `(10 * SCALE) as f32` that seeds and re-seeds the running
width `sum` of the wrap pass (lines 262, 271, 276). Floating-point values are
modelled as rationals. -/
def marginX : Rat := (10 * SCALE : Nat)

/-- Model of the line-wrapping loop of `main` (lines 262-278). The loop walks
the characters of the original `features` string while mutating a byte-indexed
copy; since `byte_count - char.len_utf8()` is always the byte offset of the
current character in the evolving copy, the net effect of each
`string.insert` is to place a newline immediately before the current
character, which is what this character-level translation does. `adv` is the
font's glyph-advance function (`font.glyph(..).advance()`) and `width` the
window width `window.size().x`. -/
def wrapChars (adv : Char → Rat) (width : Rat) : List Char → Rat → List Char
  | [], _ => []
  | c :: cs, sum =>
      if c = '\n' then
        c :: wrapChars adv width cs marginX
      else if width ≤ sum + adv c then
        '\n' :: c :: wrapChars adv width cs (adv c + marginX)
      else
        c :: wrapChars adv width cs (sum + adv c)

/-- The wrap pass applied to a whole features string, starting from the
initial `sum = (10 * SCALE) as f32` of line 262. -/
def wrapFeatures (adv : Char → Rat) (width : Rat) (s : String) : String :=
  String.mk (wrapChars adv width s.data marginX)

/-- Delete every newline character from a character list. -/
def stripNewlines : List Char → List Char
  | [] => []
  | c :: cs => if c = '\n' then stripNewlines cs else c :: stripNewlines cs

/-- Delete every newline character from a string. -/
def removeNewlines (s : String) : String := String.mk (stripNewlines s.data)

theorem wrapChars_stripNewlines (adv : Char → Rat) (width : Rat) (cs : List Char) :
    ∀ sum : Rat, stripNewlines (wrapChars adv width cs sum) = stripNewlines cs := by
  induction cs with
  | nil => intro sum; rfl
  | cons c rest ih =>
      intro sum
      by_cases hc : c = '\n'
      · simp [wrapChars, stripNewlines, hc, ih]
      · simp only [wrapChars, if_neg hc]
        by_cases hw : width ≤ sum + adv c
        · rw [if_pos hw]
          simp [stripNewlines, hc, ih]
        · rw [if_neg hw]
          simp [stripNewlines, hc, ih]

theorem sublist_wrapChars (adv : Char → Rat) (width : Rat) (cs : List Char) :
    ∀ sum : Rat, cs.Sublist (wrapChars adv width cs sum) := by
  induction cs with
  | nil => intro sum; exact List.Sublist.refl []
  | cons c rest ih =>
      intro sum
      simp only [wrapChars]
      by_cases hc : c = '\n'
      · rw [if_pos hc]
        exact List.Sublist.cons₂ c (ih _)
      · rw [if_neg hc]
        by_cases hw : width ≤ sum + adv c
        · rw [if_pos hw]
          exact List.Sublist.cons _ (List.Sublist.cons₂ c (ih _))
        · rw [if_neg hw]
          exact List.Sublist.cons₂ c (ih _)

/-- C10: the wrap pass only inserts newline characters. Deleting all newlines
from the wrapped output yields exactly the input with its newlines deleted,
and the whole input is a sublist of the output, so all other characters keep
their relative order. This holds for every glyph-advance function and window
width. -/
theorem wrap_only_inserts_newlines (adv : Char → Rat) (width : Rat) (s : String) :
    removeNewlines (wrapFeatures adv width s) = removeNewlines s ∧
    s.data.Sublist (wrapFeatures adv width s).data := by
  constructor
  · unfold removeNewlines wrapFeatures
    rw [wrapChars_stripNewlines]
  · unfold wrapFeatures
    exact sublist_wrapChars adv width s.data marginX

/-- The text strings of the two ghost-information `graphics::Text` objects
(lines 185, 193), the only render-side state the loop body updates from the
shared state. -/
structure RenderTexts where
  ghostName : String
  ghostFeatures : String
deriving DecidableEq

/-- The initial placeholder strings of lines 185 and 193. -/
def initTexts : RenderTexts :=
  { ghostName := "[GHOST_NAME]", ghostFeatures := "[GHOST_FEATURES]" }

/-- Model of the `format!("{}. {} ({}) {}", ..)` of lines 251-257. -/
def formatGhostHeader (i : Nat) (g : GhostInformation) : String :=
  toString i ++ ". " ++ g.name ++ " (" ++ g.id ++ ") " ++ g.speed

/-- Model of one pass of the render-loop body (lines 242-315) over the shared
state: if the update flag is set, the body indexes `ghosts[index]` — which
panics when the index is out of bounds, modelled by `none` — rewrites the two
ghost texts (running the wrap pass on the features), and clears the flag. The
drawing calls themselves have no effect on program state. -/
def renderBody (adv : Char → Rat) (width : Rat) (a : AppState) (t : RenderTexts) :
    Option (AppState × RenderTexts) :=
  if a.shouldUpdate then
    match a.config.ghosts.get? a.index with
    | none => none
    | some g =>
        some ({ a with shouldUpdate := false },
              { ghostName := formatGhostHeader a.index g
                ghostFeatures := wrapFeatures adv width g.features })
  else some (a, t)

/-- Whole-program state: the shared state, the render-side texts, the number
of render-loop iterations begun (`frames`), whether the loop has been left and
the windows closed (`terminated`, lines 318-319), and whether the process has
aborted with a panic (`panicked`). -/
structure SysState where
  app : AppState
  texts : RenderTexts
  frames : Nat
  terminated : Bool
  panicked : Bool
deriving DecidableEq

/-- An interleaving step of the two threads: a key event handled by the
listener callback, or one trip of the render thread through the loop guard of
line 241 (followed by the body when the guard passes). -/
inductive Action where
  | key (ev : EventType) (now : Nat)
  | render
deriving DecidableEq

/-- Small-step semantics of the program after startup. A panicked process does
nothing more. The render thread first checks the loop guard
`!window_should_close` (line 241): when the flag is set it leaves the loop and
closes the windows (lines 318-319); otherwise it begins one more iteration. -/
def sysStep (adv : Char → Rat) (width : Rat) (act : Action) (s : SysState) : SysState :=
  match act with
  | .key ev now => if s.panicked then s else { s with app := callback ev now s.app }
  | .render =>
      if s.panicked || s.terminated then s
      else if s.app.shouldClose then { s with terminated := true }
      else
        match renderBody adv width s.app s.texts with
        | none => { s with panicked := true, frames := s.frames + 1 }
        | some (a, t) => { s with app := a, texts := t, frames := s.frames + 1 }

/-- Run a finite interleaving of thread steps. -/
def sysRun (adv : Char → Rat) (width : Rat) (acts : List Action) (s : SysState) : SysState :=
  acts.foldl (fun s a => sysStep adv width a s) s

/-- The whole-program state right before the render loop is entered. -/
def initSys (c : Config) (t0 : Nat) : SysState :=
  { app := initialApp c t0, texts := initTexts, frames := 0
    terminated := false, panicked := false }

theorem callback_shouldClose_mono (ev : EventType) (now : Nat) (s : AppState)
    (h : s.shouldClose = true) : (callback ev now s).shouldClose = true := by
  cases ev with
  | keyPress k =>
      cases k with
      | num0 => rfl
      | num1 => exact h
      | num2 => exact h
      | num3 => exact h
      | keyZ => simp only [callback]; split <;> exact h
      | keyX => simp only [callback]; split <;> exact h
      | other code => exact h
  | keyRelease k => exact h

theorem sysStep_after_quit (adv : Char → Rat) (width : Rat) (act : Action)
    (s : SysState) (hq : s.app.shouldClose = true) (hp : s.panicked = false) :
    (sysStep adv width act s).app.shouldClose = true ∧
    (sysStep adv width act s).panicked = false ∧
    (sysStep adv width act s).frames = s.frames := by
  cases act with
  | key ev now =>
      have hred : sysStep adv width (.key ev now) s = { s with app := callback ev now s.app } := by
        simp [sysStep, hp]
      rw [hred]
      exact ⟨callback_shouldClose_mono ev now s.app hq, hp, rfl⟩
  | render =>
      simp only [sysStep, hp, Bool.false_or]
      by_cases ht : s.terminated = true
      · simp [ht, hq, hp]
      · simp only [Bool.not_eq_true] at ht
        simp [ht, hq, hp]

theorem sysRun_after_quit (adv : Char → Rat) (width : Rat) (acts : List Action) :
    ∀ s : SysState, s.app.shouldClose = true → s.panicked = false →
    (sysRun adv width acts s).app.shouldClose = true ∧
    (sysRun adv width acts s).panicked = false ∧
    (sysRun adv width acts s).frames = s.frames := by
  induction acts with
  | nil => intro s hq hp; exact ⟨hq, hp, rfl⟩
  | cons a rest ih =>
      intro s hq hp
      have hstep := sysStep_after_quit adv width a s hq hp
      have hrest := ih (sysStep adv width a s) hstep.1 hstep.2.1
      unfold sysRun at *
      rw [List.foldl_cons]
      exact ⟨hrest.1, hrest.2.1, by rw [hrest.2.2, hstep.2.2]⟩

/-- C6: once a press of the quit key (`Num0`) has stored `true` into the
shutdown flag of a live (non-panicked) program, the render loop never begins
another iteration — the iteration count is unchanged by any further
interleaving of key events and loop-guard trips — and the next trip of the
render thread through the guard leaves the loop, closes the windows, and
terminates. -/
theorem quit_halts_render_loop (adv : Char → Rat) (width : Rat) (s : SysState)
    (now : Nat) (acts : List Action) (hp : s.panicked = false) :
    (sysStep adv width (.key (.keyPress .num0) now) s).app.shouldClose = true ∧
    (sysRun adv width acts (sysStep adv width (.key (.keyPress .num0) now) s)).frames
      = s.frames ∧
    (sysStep adv width .render
      (sysRun adv width acts (sysStep adv width (.key (.keyPress .num0) now) s))).terminated
      = true ∧
    (sysStep adv width .render
      (sysRun adv width acts (sysStep adv width (.key (.keyPress .num0) now) s))).frames
      = s.frames := by
  have hq : (sysStep adv width (.key (.keyPress .num0) now) s).app.shouldClose = true := by
    simp [sysStep, hp, callback]
  have hp1 : (sysStep adv width (.key (.keyPress .num0) now) s).panicked = false := by
    simp [sysStep, hp]
  have hf1 : (sysStep adv width (.key (.keyPress .num0) now) s).frames = s.frames := by
    simp [sysStep, hp]
  have hrun := sysRun_after_quit adv width acts _ hq hp1
  have hfinal := sysStep_after_quit adv width .render _ hrun.1 hrun.2.1
  refine ⟨hq, by rw [hrun.2.2, hf1], ?_, by rw [hfinal.2.2, hrun.2.2, hf1]⟩
  set s2 := sysRun adv width acts (sysStep adv width (.key (.keyPress .num0) now) s) with hs2
  by_cases ht : s2.terminated = true
  · simp [sysStep, hrun.2.1, ht]
  · simp only [Bool.not_eq_true] at ht
    simp [sysStep, hrun.2.1, ht, hrun.1]

/-- A constant glyph-advance function used for concrete runs. -/
def advUnit : Char → Rat := fun _ => 10

/-- A concrete one-ghost config used for concrete runs. -/
def sampleConfig : Config :=
  { version := 1
    ghosts := [{ id := "spirit", name := "Spirit", speed := "1.7 m/s",
                 features := "Smudge timeout 180s" }] }

/-- Witness for C6 on a concrete run: quit pressed at the initial state, one
stray guard trip, then the final guard trip terminates. -/
theorem quit_halts_render_loop_witness :
    (initSys sampleConfig 0).panicked = false ∧
    (sysStep advUnit 600 .render
      (sysRun advUnit 600 [Action.render]
        (sysStep advUnit 600 (.key (.keyPress .num0) 7) (initSys sampleConfig 0)))).terminated
      = true :=
  ⟨rfl, (quit_halts_render_loop advUnit 600 (initSys sampleConfig 0) 7
    [Action.render] rfl).2.2.1⟩

/-- Witness for C5 on the concrete one-ghost config: an X press then a Z press
keep the index within `0..n-1`. -/
theorem ghost_index_invariant_witness :
    1 ≤ sampleConfig.ghosts.length ∧ sampleConfig.ghosts.length < USIZE ∧
    (runPresses [(Key.keyX, 2), (Key.keyZ, 3)] (initialApp sampleConfig 0)).index ≤
      sampleConfig.ghosts.length - 1 :=
  ⟨by decide, by decide,
    (ghost_index_invariant sampleConfig 0 (by decide) (by decide)).2.1
      [(Key.keyX, 2), (Key.keyZ, 3)] (by decide)⟩

/-- C9: with an empty ghost list the program is not safe. The `X`-handler's
guard evaluates `ghosts.len() - 1`, an underflowing `usize` subtraction (it
panics in a debug build and wraps to `usize::MAX` in release); and the very
first ghost-information update — the update flag starts `true` — indexes
`ghosts[index]` out of bounds, so the first render iteration panics. Hence
every non-panicking run requires a non-empty ghost list. -/
theorem empty_ghosts_panics (adv : Char → Rat) (width : Rat) (c : Config) (t0 : Nat)
    (hc : c.ghosts = []) :
    usizeSubUnderflows c.ghosts.length 1 = true ∧
    usizeSub c.ghosts.length 1 = USIZE - 1 ∧
    (initialApp c t0).shouldUpdate = true ∧
    c.ghosts.get? (initialApp c t0).index = none ∧
    renderBody adv width (initialApp c t0) initTexts = none ∧
    (sysStep adv width Action.render (initSys c t0)).panicked = true := by
  refine ⟨?_, ?_, rfl, ?_, ?_, ?_⟩
  · simp [usizeSubUnderflows, hc]
  · rw [hc]
    unfold usizeSub USIZE
    simp
  · rw [hc]; rfl
  · simp [renderBody, initialApp, hc]
  · simp [sysStep, initSys, renderBody, initialApp, hc]

/-- A concrete empty-ghost-list config. -/
def emptyConfig : Config := { version := 1, ghosts := [] }

/-- Witness for C9 on the concrete empty config. -/
theorem empty_ghosts_panics_witness :
    emptyConfig.ghosts = [] ∧
    (sysStep advUnit 600 Action.render (initSys emptyConfig 0)).panicked = true :=
  ⟨rfl, (empty_ghosts_panics advUnit 600 emptyConfig 0 rfl).2.2.2.2.2⟩

/-- A parsed JSON document. Objects are ordered lists of key/value entries (a
JSON text may repeat a key); numbers are integers or an opaque non-integer
(floating-point) marker, since deserializing the config only ever asks a
number for an `i32` and rejects any non-integer number. -/
inductive Json where
  | null
  | bool (b : Bool)
  | int (n : Int)
  | float
  | str (s : String)
  | arr (elems : List Json)
  | obj (fields : List (String × Json))

/-- Smallest value of the Rust `i32`. -/
def I32MIN : Int := -(2 ^ 31)

/-- Largest value of the Rust `i32`. -/
def I32MAX : Int := 2 ^ 31 - 1

/-- Deserializing a `String` from a JSON value: only a JSON string succeeds. -/
def getString : Json → Option String
  | .str s => some s
  | _ => none

/-- Deserializing an `i32` from a JSON value: only an integer number in the
signed 32-bit range succeeds (serde_json range-checks integers and rejects
floating-point numbers for integer targets). -/
def getI32 : Json → Option Int
  | .int n => if I32MIN ≤ n ∧ n ≤ I32MAX then some n else none
  | _ => none

/-- One recognized entry of the serde-derived map visitor: if the field slot
is already filled this is a `duplicate field` error (checked before the value
is even deserialized), otherwise the value is deserialized with `get` and an
error there propagates. -/
def setOnce {α : Type} (get : Json → Option α) (acc : Option α) (v : Json) :
    Option (Option α) :=
  match acc, get v with
  | none, some x => some (some x)
  | _, _ => none

/-- End of the visitor for `GhostInformation`: any still-missing field is a
`missing field` error. -/
def finishGhost : Option String → Option String → Option String → Option String →
    Option GhostInformation
  | some i, some n, some sp, some f =>
      some { id := i, name := n, speed := sp, features := f }
  | _, _, _, _ => none

/-- The field loop of the serde-derived map visitor for `GhostInformation`
(main.rs lines 83-89): entries are scanned in order; a recognized field that
is already set is a `duplicate field` error, a recognized field whose value is
not a string is an error, unrecognized fields are ignored, and at the end any
still-missing field is a `missing field` error. -/
def ghostFields : List (String × Json) → Option String → Option String → Option String →
    Option String → Option GhostInformation
  | [], i, n, sp, f => finishGhost i n sp f
  | (k, v) :: rest, i, n, sp, f =>
      if k = "id" then
        match setOnce getString i v with
        | some i2 => ghostFields rest i2 n sp f
        | none => none
      else if k = "name" then
        match setOnce getString n v with
        | some n2 => ghostFields rest i n2 sp f
        | none => none
      else if k = "speed" then
        match setOnce getString sp v with
        | some sp2 => ghostFields rest i n sp2 f
        | none => none
      else if k = "features" then
        match setOnce getString f v with
        | some f2 => ghostFields rest i n sp f2
        | none => none
      else ghostFields rest i n sp f

/-- Deserializing one `GhostInformation` record: the value must be an object
(the map form of a serde struct). -/
def parseGhost : Json → Option GhostInformation
  | .obj fields => ghostFields fields none none none none
  | _ => none

/-- Deserializing `Vec<GhostInformation>` element by element. -/
def parseGhosts : List Json → Option (List GhostInformation)
  | [] => some []
  | j :: rest =>
      match parseGhost j, parseGhosts rest with
      | some g, some gs => some (g :: gs)
      | _, _ => none

/-- Deserializing the `ghosts` field: the value must be a JSON array. -/
def getGhosts : Json → Option (List GhostInformation)
  | .arr xs => parseGhosts xs
  | _ => none

/-- End of the visitor for `Config`: any still-missing field is a
`missing field` error. -/
def finishConfig : Option Int → Option (List GhostInformation) → Option Config
  | some v, some gs => some { version := v, ghosts := gs }
  | _, _ => none

/-- The field loop of the serde-derived map visitor for `Config`
(main.rs lines 91-95), with the same duplicate/unknown/missing rules as
`ghostFields`. -/
def configFields : List (String × Json) → Option Int → Option (List GhostInformation) →
    Option Config
  | [], v, gs => finishConfig v gs
  | (k, val) :: rest, v, gs =>
      if k = "version" then
        match setOnce getI32 v val with
        | some v2 => configFields rest v2 gs
        | none => none
      else if k = "ghosts" then
        match setOnce getGhosts gs val with
        | some gs2 => configFields rest v gs2
        | none => none
      else configFields rest v gs

/-- Model of `serde_json::from_str::<Config>` applied to the parsed JSON value
of `config.json` (main.rs lines 101-103), in the object form of the config. -/
def parseConfig : Json → Option Config
  | .obj fields => configFields fields none none
  | _ => none

/-- How many entries of an object carry the given key. -/
def countKey : List (String × Json) → String → Nat
  | [], _ => 0
  | (k, _) :: rest, key => if k = key then countKey rest key + 1 else countKey rest key

/-- The first entry of an object carrying the given key, if any. -/
def lookupKey : List (String × Json) → String → Option Json
  | [], _ => none
  | (k, v) :: rest, key => if k = key then some v else lookupKey rest key

/-- The key appears exactly once and its value is a JSON string. -/
def StringFieldOnce (fields : List (String × Json)) (key : String) : Prop :=
  countKey fields key = 1 ∧ ∃ s, lookupKey fields key = some (Json.str s)

/-- What the remaining entries must look like for the ghost field loop to
succeed, given the current accumulator of one recognized field: if the field
is already set the key must not appear again; otherwise it must appear exactly
once with a string value. -/
def AccOk (fields : List (String × Json)) (key : String) : Option String → Prop
  | some _ => countKey fields key = 0
  | none => StringFieldOnce fields key

/-- A JSON value deserializable as a `GhostInformation` record: an object in
which each of the four string fields appears exactly once with a string value
(unrecognized fields are ignored). -/
def GhostRecordOk : Json → Prop
  | .obj fields =>
      StringFieldOnce fields "id" ∧ StringFieldOnce fields "name" ∧
      StringFieldOnce fields "speed" ∧ StringFieldOnce fields "features"
  | _ => False

/-- The `version` key appears exactly once and holds an integer in the signed
32-bit range. -/
def IntFieldOnce (fields : List (String × Json)) : Prop :=
  countKey fields "version" = 1 ∧
  ∃ nv : Int, lookupKey fields "version" = some (Json.int nv) ∧ I32MIN ≤ nv ∧ nv ≤ I32MAX

/-- The `ghosts` key appears exactly once and holds an array of deserializable
ghost records. -/
def GhostsFieldOnce (fields : List (String × Json)) : Prop :=
  countKey fields "ghosts" = 1 ∧
  ∃ xs, lookupKey fields "ghosts" = some (Json.arr xs) ∧ ∀ x ∈ xs, GhostRecordOk x

/-- Accumulator condition for the `version` field of the config field loop. -/
def VAcc (fields : List (String × Json)) : Option Int → Prop
  | some _ => countKey fields "version" = 0
  | none => IntFieldOnce fields

/-- Accumulator condition for the `ghosts` field of the config field loop. -/
def GAcc (fields : List (String × Json)) : Option (List GhostInformation) → Prop
  | some _ => countKey fields "ghosts" = 0
  | none => GhostsFieldOnce fields

/-- The amended characterization of a parsable config: an object in which
`version` appears exactly once with an integer value in the signed 32-bit
range and `ghosts` appears exactly once with an array of well-formed ghost
records. -/
def ConfigOkAmended : Json → Prop
  | .obj fields => IntFieldOnce fields ∧ GhostsFieldOnce fields
  | _ => False

/-- The claim's original characterization: an object with an integer field
`version` and a field `ghosts` holding a list of records each supplying the
four string fields (no range restriction, first occurrence looked up). -/
def GhostRecordClaim : Json → Prop
  | .obj fields =>
      (∃ s, lookupKey fields "id" = some (Json.str s)) ∧
      (∃ s, lookupKey fields "name" = some (Json.str s)) ∧
      (∃ s, lookupKey fields "speed" = some (Json.str s)) ∧
      (∃ s, lookupKey fields "features" = some (Json.str s))
  | _ => False

/-- The claim's original characterization of a parsable config. -/
def ConfigOkClaim : Json → Prop
  | .obj fields =>
      (∃ nv : Int, lookupKey fields "version" = some (Json.int nv)) ∧
      (∃ xs, lookupKey fields "ghosts" = some (Json.arr xs) ∧ ∀ x ∈ xs, GhostRecordClaim x)
  | _ => False

/-- The fate of reading and syntax-parsing `./config.json`: the file may be
missing (the `fs::read_to_string` error of line 102), syntactically malformed
(the first `serde_json` error source), or a JSON document. -/
inductive ConfigFile where
  | missing
  | invalidSyntax
  | json (j : Json)

/-- The startup failures of `main` before the render loop: the `?` on the
config read (line 102), the `?` on the config deserialization (line 102), the
`?` on `SetLayeredWindowAttributes` (line 127), and the `.unwrap()` on the
font load (line 133). -/
inductive StartupError where
  | configRead
  | configParse
  | windowApi
  | fontLoad
deriving DecidableEq

/-- Model of the startup sequence of `main` (lines 97-239) up to the point
where the render loop is entered: read and parse the config, perform the
window-API calls, load the font. Each failure propagates out of `main` (or
panics) immediately. -/
def startup (cfg : ConfigFile) (winApiOk fontOk : Bool) : Except StartupError Config :=
  match cfg with
  | .missing => .error .configRead
  | .invalidSyntax => .error .configParse
  | .json j =>
      match parseConfig j with
      | none => .error .configParse
      | some c =>
          if !winApiOk then .error .windowApi
          else if !fontOk then .error .fontLoad
          else .ok c

/-- Model of the whole process: run startup; on failure the process
terminates with that error and the render loop never runs; on success the
program runs some finite interleaving of thread steps from the initial
state. -/
def runProgram (adv : Char → Rat) (width : Rat) (cfg : ConfigFile) (winApiOk fontOk : Bool)
    (t0 : Nat) (acts : List Action) : Except StartupError SysState :=
  match startup cfg winApiOk fontOk with
  | .error e => .error e
  | .ok c => .ok (sysRun adv width acts (initSys c t0))

theorem ghostFields_isSome (fs : List (String × Json)) :
    ∀ i n sp f, (ghostFields fs i n sp f).isSome = true ↔
      (AccOk fs "id" i ∧ AccOk fs "name" n ∧ AccOk fs "speed" sp ∧ AccOk fs "features" f) := by
  induction fs with
  | nil =>
      intro i n sp f
      cases i <;> cases n <;> cases sp <;> cases f <;>
        simp [ghostFields, finishGhost, AccOk, StringFieldOnce, countKey, lookupKey]
  | cons p rest ih =>
      intro i n sp f
      obtain ⟨k, v⟩ := p
      by_cases hk1 : k = "id"
      · subst hk1
        cases i with
        | some a => simp [ghostFields, setOnce, AccOk, countKey]
        | none =>
            cases v <;>
              simp [ghostFields, setOnce, AccOk, StringFieldOnce, countKey, lookupKey, getString, ih]
      · by_cases hk2 : k = "name"
        · subst hk2
          cases n with
          | some a => simp [ghostFields, setOnce, AccOk, countKey]
          | none =>
              cases v <;>
                simp [ghostFields, setOnce, AccOk, StringFieldOnce, countKey, lookupKey, getString, ih]
        · by_cases hk3 : k = "speed"
          · subst hk3
            cases sp with
            | some a => simp [ghostFields, setOnce, AccOk, countKey]
            | none =>
                cases v <;>
                  simp [ghostFields, setOnce, AccOk, StringFieldOnce, countKey, lookupKey, getString, ih]
          · by_cases hk4 : k = "features"
            · subst hk4
              cases f with
              | some a => simp [ghostFields, setOnce, AccOk, countKey]
              | none =>
                  cases v <;>
                    simp [ghostFields, setOnce, AccOk, StringFieldOnce, countKey, lookupKey, getString, ih]
            · simp [ghostFields, AccOk, StringFieldOnce, countKey, lookupKey,
                hk1, hk2, hk3, hk4, ih]

theorem parseGhost_isSome (j : Json) : (parseGhost j).isSome = true ↔ GhostRecordOk j := by
  cases j <;> simp [parseGhost, GhostRecordOk, AccOk, ghostFields_isSome]

theorem parseGhosts_isSome (xs : List Json) :
    (parseGhosts xs).isSome = true ↔ ∀ x ∈ xs, GhostRecordOk x := by
  induction xs with
  | nil => simp [parseGhosts]
  | cons j rest ih =>
      cases hj : parseGhost j with
      | none =>
          have hnot : ¬ GhostRecordOk j := by
            rw [← parseGhost_isSome, hj]
            simp
          simp [parseGhosts, hj, hnot]
      | some g =>
          have hok : GhostRecordOk j := by
            rw [← parseGhost_isSome, hj]
            rfl
          cases hr : parseGhosts rest with
          | none => simp [parseGhosts, hj, hr, hok, ← ih]
          | some gs => simp [parseGhosts, hj, hr, hok, ← ih]

theorem configFields_isSome (fs : List (String × Json)) :
    ∀ v g, (configFields fs v g).isSome = true ↔ (VAcc fs v ∧ GAcc fs g) := by
  induction fs with
  | nil =>
      intro v g
      cases v <;> cases g <;>
        simp [configFields, finishConfig, VAcc, GAcc, IntFieldOnce, GhostsFieldOnce,
          countKey, lookupKey]
  | cons p rest ih =>
      intro v g
      obtain ⟨k, val⟩ := p
      by_cases hk1 : k = "version"
      · subst hk1
        cases v with
        | some a => simp [configFields, setOnce, VAcc, GAcc, countKey, lookupKey]
        | none =>
            cases val with
            | int n0 =>
                by_cases hr : I32MIN ≤ n0 ∧ n0 ≤ I32MAX
                · simp [configFields, setOnce, getI32, hr, VAcc, GAcc, IntFieldOnce,
                    GhostsFieldOnce, countKey, lookupKey, ih, hr.1, hr.2]
                · simp only [Decidable.not_and_iff_or_not] at hr
                  rcases hr with hr | hr <;>
                    simp [configFields, setOnce, getI32, VAcc, GAcc, IntFieldOnce,
                      GhostsFieldOnce, countKey, lookupKey, hr]
            | null =>
                simp [configFields, setOnce, getI32, VAcc, GAcc, IntFieldOnce,
                  GhostsFieldOnce, countKey, lookupKey]
            | bool b =>
                simp [configFields, setOnce, getI32, VAcc, GAcc, IntFieldOnce,
                  GhostsFieldOnce, countKey, lookupKey]
            | float =>
                simp [configFields, setOnce, getI32, VAcc, GAcc, IntFieldOnce,
                  GhostsFieldOnce, countKey, lookupKey]
            | str s0 =>
                simp [configFields, setOnce, getI32, VAcc, GAcc, IntFieldOnce,
                  GhostsFieldOnce, countKey, lookupKey]
            | arr xs =>
                simp [configFields, setOnce, getI32, VAcc, GAcc, IntFieldOnce,
                  GhostsFieldOnce, countKey, lookupKey]
            | obj ofs =>
                simp [configFields, setOnce, getI32, VAcc, GAcc, IntFieldOnce,
                  GhostsFieldOnce, countKey, lookupKey]
      · by_cases hk2 : k = "ghosts"
        · subst hk2
          cases g with
          | some a => simp [configFields, setOnce, VAcc, GAcc, countKey, lookupKey, hk1]
          | none =>
              cases val with
              | arr xs =>
                  cases hpg : parseGhosts xs with
                  | none =>
                      have hnot : ¬ ∀ x ∈ xs, GhostRecordOk x := by
                        rw [← parseGhosts_isSome, hpg]
                        simp
                      simp [configFields, setOnce, getGhosts, hpg, VAcc, GAcc,
                        IntFieldOnce, GhostsFieldOnce, countKey, lookupKey, hk1, hnot]
                  | some gs =>
                      have hok : ∀ x ∈ xs, GhostRecordOk x := by
                        rw [← parseGhosts_isSome, hpg]
                        rfl
                      simp [configFields, setOnce, getGhosts, hpg, VAcc, GAcc,
                        IntFieldOnce, GhostsFieldOnce, countKey, lookupKey, hk1, hok, ih]
                      intro _ _
                      exact hok
              | null =>
                  simp [configFields, setOnce, getGhosts, VAcc, GAcc, IntFieldOnce,
                    GhostsFieldOnce, countKey, lookupKey, hk1]
              | bool b =>
                  simp [configFields, setOnce, getGhosts, VAcc, GAcc, IntFieldOnce,
                    GhostsFieldOnce, countKey, lookupKey, hk1]
              | int n0 =>
                  simp [configFields, setOnce, getGhosts, VAcc, GAcc, IntFieldOnce,
                    GhostsFieldOnce, countKey, lookupKey, hk1]
              | float =>
                  simp [configFields, setOnce, getGhosts, VAcc, GAcc, IntFieldOnce,
                    GhostsFieldOnce, countKey, lookupKey, hk1]
              | str s0 =>
                  simp [configFields, setOnce, getGhosts, VAcc, GAcc, IntFieldOnce,
                    GhostsFieldOnce, countKey, lookupKey, hk1]
              | obj ofs =>
                  simp [configFields, setOnce, getGhosts, VAcc, GAcc, IntFieldOnce,
                    GhostsFieldOnce, countKey, lookupKey, hk1]
        · simp [configFields, VAcc, GAcc, IntFieldOnce, GhostsFieldOnce, countKey,
            lookupKey, hk1, hk2, ih]

theorem parseConfig_isSome (j : Json) :
    (parseConfig j).isSome = true ↔ ConfigOkAmended j := by
  cases j <;> simp [parseConfig, ConfigOkAmended, VAcc, GAcc, configFields_isSome]

/-- C7: if the config file is missing or unparsable, or the font file is
missing, or the checked window-API call fails at startup, the process
terminates unrecoverably before entering the render loop: for every possible
subsequent interleaving of thread steps the program is the same startup error,
so nothing retries, recovers, or continues in a partial-failure state. -/
theorem startup_failures_abort (cfg : ConfigFile) (w fo : Bool) (t0 : Nat)
    (adv : Char → Rat) (width : Rat)
    (h : cfg = ConfigFile.missing ∨ cfg = ConfigFile.invalidSyntax ∨
      (∃ j, cfg = ConfigFile.json j ∧ parseConfig j = none) ∨ w = false ∨ fo = false) :
    ∃ e, ∀ acts : List Action,
      runProgram adv width cfg w fo t0 acts = Except.error e := by
  rcases h with h | h | ⟨j, hj, hpj⟩ | h | h
  · subst h
    exact ⟨.configRead, fun acts => rfl⟩
  · subst h
    exact ⟨.configParse, fun acts => rfl⟩
  · subst hj
    exact ⟨.configParse, fun acts => by simp [runProgram, startup, hpj]⟩
  · subst h
    cases cfg with
    | missing => exact ⟨.configRead, fun acts => rfl⟩
    | invalidSyntax => exact ⟨.configParse, fun acts => rfl⟩
    | json j =>
        cases hpj : parseConfig j with
        | none => exact ⟨.configParse, fun acts => by simp [runProgram, startup, hpj]⟩
        | some c => exact ⟨.windowApi, fun acts => by simp [runProgram, startup, hpj]⟩
  · subst h
    cases cfg with
    | missing => exact ⟨.configRead, fun acts => rfl⟩
    | invalidSyntax => exact ⟨.configParse, fun acts => rfl⟩
    | json j =>
        cases hpj : parseConfig j with
        | none => exact ⟨.configParse, fun acts => by simp [runProgram, startup, hpj]⟩
        | some c =>
            cases w with
            | false => exact ⟨.windowApi, fun acts => by simp [runProgram, startup, hpj]⟩
            | true => exact ⟨.fontLoad, fun acts => by simp [runProgram, startup, hpj]⟩

/-- Witness for C7: a missing config file aborts the whole program. -/
theorem startup_failures_abort_witness :
    (ConfigFile.missing = ConfigFile.missing ∨
      ConfigFile.missing = ConfigFile.invalidSyntax ∨
      (∃ j, ConfigFile.missing = ConfigFile.json j ∧ parseConfig j = none) ∨
      true = false ∨ true = false) ∧
    (∃ e, ∀ acts : List Action,
      runProgram advUnit 600 ConfigFile.missing true true 0 acts = Except.error e) :=
  ⟨Or.inl rfl,
    startup_failures_abort ConfigFile.missing true true 0 advUnit 600 (Or.inl rfl)⟩

/-- C8 (amended): config parsing succeeds exactly when the JSON input is an
object in which `version` appears exactly once with an integer value in the
signed 32-bit range and `ghosts` appears exactly once with a list of records,
each an object in which each of `id`, `name`, `speed`, `features` appears
exactly once with a string value (unrecognized fields are ignored); and any
input that fails to parse aborts startup. -/
theorem config_parse_characterization (j : Json) :
    ((parseConfig j).isSome = true ↔ ConfigOkAmended j) ∧
    (∀ (w fo : Bool) (t0 : Nat) (acts : List Action) (adv : Char → Rat) (width : Rat),
      parseConfig j = none →
      runProgram adv width (ConfigFile.json j) w fo t0 acts =
        Except.error StartupError.configParse) := by
  refine ⟨parseConfig_isSome j, ?_⟩
  intro w fo t0 acts adv width hpz
  simp [runProgram, startup, hpz]

/-- A JSON object that satisfies the claim as stated — it has an integer
`version` field and a `ghosts` field holding a (trivially well-formed, empty)
list of records — yet whose `version` does not fit in an `i32`. -/
def badConfigJson : Json :=
  Json.obj [("version", Json.int 2147483648), ("ghosts", Json.arr [])]

/-- C8 counterexample: the claim as stated is false at `badConfigJson`: it is
an object with an integer `version` field and a well-formed `ghosts` list, yet
parsing fails, because `2147483648` overflows `i32`. -/
theorem config_claim_counterexample :
    ConfigOkClaim badConfigJson ∧ parseConfig badConfigJson = none ∧
    ¬ ((parseConfig badConfigJson).isSome = true ↔ ConfigOkClaim badConfigJson) := by
  refine ⟨⟨⟨2147483648, rfl⟩, ⟨[], rfl, by simp⟩⟩, rfl, ?_⟩
  intro hiff
  have h1 : ConfigOkClaim badConfigJson := ⟨⟨2147483648, rfl⟩, ⟨[], rfl, by simp⟩⟩
  have h2 := hiff.mpr h1
  simp [parseConfig, configFields, setOnce, getI32, badConfigJson, I32MIN, I32MAX] at h2

/-- Witness for C8 at `badConfigJson`: the parse fails and startup aborts. -/
theorem config_parse_characterization_witness :
    parseConfig badConfigJson = none ∧
    runProgram advUnit 600 (ConfigFile.json badConfigJson) true true 0 [] =
      Except.error StartupError.configParse :=
  ⟨rfl, (config_parse_characterization badConfigJson).2 true true 0 [] advUnit 600 rfl⟩

end Phasutils
